import Mathlib

/-!
Shallow embedding of the payments engine (src/account.rs, src/error.rs,
src/payments.rs, src/storage.rs).  Machine `u128` values are modelled as
`Nat` together with explicit bound checks against `U128MAX`; the in-place
mutation of `Arc<Mutex<_>>` records is modelled by threading an explicit
`EngineState` (key-indexed maps) through each operation, so that a mutation
performed before a later failure persists, exactly as in the Rust code.
-/

instance {ε α : Type} [DecidableEq ε] [DecidableEq α] : DecidableEq (Except ε α)
  | .ok a, .ok b =>
    if h : a = b then .isTrue (by rw [h]) else .isFalse (by simp [h])
  | .ok _, .error _ => .isFalse (by simp)
  | .error _, .ok _ => .isFalse (by simp)
  | .error a, .error b =>
    if h : a = b then .isTrue (by rw [h]) else .isFalse (by simp [h])

/-- Upper bound of the `u128` range, `u128::MAX`. -/
def U128MAX : Nat := 2 ^ 128 - 1

/-- Errors, mirroring `Error` in src/error.rs. -/
inductive Error where
  | MissingAmount (tx : Nat)
  | TotalOverflow
  | TxNotFound
  | AccountLocked (client : Nat)
  | TxNotDisputed (tx : Nat)
  | TxAlreadyDisputed (tx : Nat)
  | InvalidAmount (msg : String)
  | MaxAvailableOverflow
  | MaxHeldOverflow
  | MinAvailableUnderflow
  | MinHeldUnderflow
  | UnexpectedMissingAccount (client : Nat)
  | InvalidDispute (tx : Nat)
deriving DecidableEq, Repr

/-- Transaction kinds, mirroring `TxType` in src/payments.rs. -/
inductive TxType where
  | Dispute
  | Resolve
  | Chargeback
  | Deposit
  | Withdrawal
deriving DecidableEq, Repr

/-- An account, mirroring `Account` in src/account.rs (`available` and `held`
are `u128` in the source, modelled as `Nat` kept within `U128MAX` by the
checked operations). -/
structure Account where
  client_id : Nat
  available : Nat
  held : Nat
  locked : Bool
deriving DecidableEq, Repr

/-- `Account::new` in src/account.rs. -/
def Account.new (client_id available held : Nat) (locked : Bool) : Account :=
  ⟨client_id, available, held, locked⟩

/-- `Account::new_unlocked` in src/account.rs. -/
def Account.new_unlocked (client_id : Nat) : Account :=
  ⟨client_id, 0, 0, false⟩

/-- `Account::total` in src/account.rs: the unchecked sum `available + held`.
In Rust this is machine `u128` addition; the mathematical value is returned
here, and `Account.total_u128` below gives the wrapped machine result. -/
def Account.total (a : Account) : Nat := a.available + a.held

/-- The machine (`u128`, wrapping) value computed by `Account::total`. -/
def Account.total_u128 (a : Account) : Nat := (a.available + a.held) % 2 ^ 128

/-- `Account::add_available`: `checked_add`, failing with
`MaxAvailableOverflow` and leaving the account unchanged on overflow. -/
def Account.add_available (a : Account) (amount : Nat) : Except Error Account :=
  if a.available + amount ≤ U128MAX then
    .ok { a with available := a.available + amount }
  else .error .MaxAvailableOverflow

/-- `Account::sub_available`: `checked_sub`, failing with
`MinAvailableUnderflow` on underflow. -/
def Account.sub_available (a : Account) (amount : Nat) : Except Error Account :=
  if amount ≤ a.available then
    .ok { a with available := a.available - amount }
  else .error .MinAvailableUnderflow

/-- `Account::add_held`: `checked_add`, failing with `MaxHeldOverflow`. -/
def Account.add_held (a : Account) (amount : Nat) : Except Error Account :=
  if a.held + amount ≤ U128MAX then
    .ok { a with held := a.held + amount }
  else .error .MaxHeldOverflow

/-- `Account::sub_held`: `checked_sub`, failing with `MinHeldUnderflow`. -/
def Account.sub_held (a : Account) (amount : Nat) : Except Error Account :=
  if amount ≤ a.held then
    .ok { a with held := a.held - amount }
  else .error .MinHeldUnderflow

/-- `Account::set_locked` in src/account.rs. -/
def Account.set_locked (a : Account) (b : Bool) : Account :=
  { a with locked := b }

/-- A transaction record, mirroring `Tx` in src/payments.rs.  The `amount`
is the pair of whole/fraction strings produced by `deserialize_amount`. -/
structure Tx where
  type : TxType
  client : Nat
  id : Nat
  amount : Option (String × String)
  disputed : Bool
deriving DecidableEq, Repr

/-- `Tx::mark_disputed`. -/
def Tx.mark_disputed (t : Tx) : Tx := { t with disputed := true }

/-- `Tx::mark_resolved`. -/
def Tx.mark_resolved (t : Tx) : Tx := { t with disputed := false }

/-- `Tx::mark_charged_back` (the source resets `disputed` to `false`). -/
def Tx.mark_charged_back (t : Tx) : Tx := { t with disputed := false }

/-- `Tx::storable`: only Withdrawal and Deposit records are stored. -/
def Tx.storable (t : Tx) : Bool :=
  match t.type with
  | .Withdrawal => true
  | .Deposit => true
  | _ => false

/-- Rust's ASCII digit test `'0'..='9'` on a character, via its code point. -/
def isDigitChar (c : Char) : Bool := 48 ≤ c.toNat && c.toNat ≤ 57

/-- Value of a digit character. -/
def digitVal (c : Char) : Nat := c.toNat - 48

/-- Decimal value of a digit list, most significant first. -/
def digitsToNat (l : List Char) : Nat :=
  l.foldl (fun acc c => acc * 10 + digitVal c) 0

/-- Rust's `u128::from_str` on a character list: an optional leading `+`
sign followed by one or more ASCII digits, whose value must fit in `u128`. -/
def parseU128list (l : List Char) : Option Nat :=
  let l2 := match l with
            | c :: rest => if c = '+' then rest else c :: rest
            | [] => []
  if l2.isEmpty then none
  else if l2.all isDigitChar then
    if digitsToNat l2 ≤ U128MAX then some (digitsToNat l2) else none
  else none

/-- Rust's `str::parse::<u128>()`. -/
def parseU128 (s : String) : Option Nat := parseU128list s.toList

/-- `Tx::parse_amount` in src/payments.rs: parse the two amount parts and
return the value in `10^4` denomination.  A missing amount parses to `0`.
The error message details (Rust interpolates the offending values) are
abbreviated; only the `InvalidAmount` kind is observable to callers. -/
def Tx.parse_amount (t : Tx) : Except Error Nat :=
  match t.amount with
  | none => .ok 0
  | some (w, f) =>
    match parseU128 w with
    | none => .error (.InvalidAmount ("Whole part error when parsing: " ++ w))
    | some whole =>
      match parseU128 f with
      | none => .error (.InvalidAmount ("Fractional part error when parsing: " ++ f))
      | some frac =>
        if f.length ≥ 2 ^ 32 then
          .error (.InvalidAmount "fraction digits count does not fit u32")
        else if f.length > 4 then
          .error (.InvalidAmount "amount has more than 4 decimal places")
        else if whole * 10000 > U128MAX then
          .error (.InvalidAmount "overflow when storing whole in 10**4 denomination")
        else if whole * 10000 + frac * 10 ^ (4 - f.length) > U128MAX then
          .error (.InvalidAmount "overflow when storing the whole + fraction in 10**4 denomination")
        else
          .ok (whole * 10000 + frac * 10 ^ (4 - f.length))

/-- Rust's `str::split('.')` collected into a `Vec`: the list of maximal
runs between dots (the empty string yields one empty part). -/
def splitDot (l : List Char) : List (List Char) :=
  match l with
  | [] => [[]]
  | c :: rest =>
    if c = '.' then [] :: splitDot rest
    else
      match splitDot rest with
      | [] => [[c]]
      | p :: ps => (c :: p) :: ps

/-- `deserialize_amount` in src/payments.rs: split the raw field on `.` into
whole and fractional parts (`Vec::len` 0, 1, 2, or more). -/
def deserialize_amount (s : String) : Except String (Option (String × String)) :=
  match (splitDot s.toList).map List.asString with
  | [] => .ok none
  | [w] => .ok (some (w, "0"))
  | [w, f] => .ok (some (w, f))
  | _ => .error ("unexpected input: " ++ s)

/-- The engine's state: the two in-memory ledgers of src/storage.rs
(`InMemoryAccountLedger`, `InMemoryTxLedger`), as keyed partial maps. -/
structure EngineState where
  accounts : Nat → Option Account
  txs : Nat → Option Tx

/-- Point update of a keyed map (`HashMap::insert`). -/
def upd {α : Type} (m : Nat → Option α) (k : Nat) (v : α) : Nat → Option α :=
  fun k2 => if k2 = k then some v else m k2

/-- `AccountsDal::insert` on the engine: store an account under a key. -/
def setAccount (s : EngineState) (c : Nat) (a : Account) : EngineState :=
  { s with accounts := upd s.accounts c a }

/-- Write-through of an in-place mutation of a stored transaction. -/
def setTx (s : EngineState) (i : Nat) (t : Tx) : EngineState :=
  { s with txs := upd s.txs i t }

/-- `TxsDal::insert` on the engine: store a transaction under its id. -/
def insertTx (s : EngineState) (t : Tx) : EngineState := setTx s t.id t

/-- Account resolution at the top of `Tx::handle`: look the account up and
lazily create it (`Account::new_unlocked`) when unseen. -/
def ensureAccount (s : EngineState) (c : Nat) : EngineState :=
  match s.accounts c with
  | some _ => s
  | none => setAccount s c (Account.new_unlocked c)

/-- Deposit branch of `Tx::handle`. -/
def handleDeposit (tx : Tx) (acct : Account) (s0 : EngineState) :
    Except Error Unit × EngineState :=
  if acct.locked then (.error (.AccountLocked acct.client_id), s0)
  else
    match tx.parse_amount with
    | .error e => (.error e, s0)
    | .ok amt =>
      match acct.add_available amt with
      | .error e => (.error e, s0)
      | .ok a2 => (.ok (), setAccount s0 tx.client a2)

/-- Withdrawal branch of `Tx::handle`. -/
def handleWithdrawal (tx : Tx) (acct : Account) (s0 : EngineState) :
    Except Error Unit × EngineState :=
  if acct.locked then (.error (.AccountLocked acct.client_id), s0)
  else
    match tx.parse_amount with
    | .error e => (.error e, s0)
    | .ok amt =>
      match acct.sub_available amt with
      | .error e => (.error e, s0)
      | .ok a2 => (.ok (), setAccount s0 tx.client a2)

/-- Dispute branch of `Tx::handle`: the referenced transaction is looked up
by id only; guards run in source order (locked, kind, already disputed);
`sub_available` is applied, the transaction marked disputed, and only then
`add_held` — so a held overflow leaves the earlier mutations in place. -/
def handleDispute (tx : Tx) (acct : Account) (s0 : EngineState) :
    Except Error Unit × EngineState :=
  match s0.txs tx.id with
  | none => (.error .TxNotFound, s0)
  | some t =>
    if acct.locked then (.error (.AccountLocked acct.client_id), s0)
    else if t.type ≠ TxType.Deposit then (.error (.InvalidDispute t.id), s0)
    else if t.disputed then (.error (.TxAlreadyDisputed t.id), s0)
    else
      match t.parse_amount with
      | .error e => (.error e, s0)
      | .ok amt =>
        match acct.sub_available amt with
        | .error e => (.error e, s0)
        | .ok a1 =>
          let s1 := setTx (setAccount s0 tx.client a1) tx.id t.mark_disputed
          match a1.add_held amt with
          | .error e => (.error e, s1)
          | .ok a2 => (.ok (), setAccount s1 tx.client a2)

/-- Resolve branch of `Tx::handle`. -/
def handleResolve (tx : Tx) (acct : Account) (s0 : EngineState) :
    Except Error Unit × EngineState :=
  match s0.txs tx.id with
  | none => (.error .TxNotFound, s0)
  | some t =>
    if !t.disputed then (.error (.TxNotDisputed t.id), s0)
    else if acct.locked then (.error (.AccountLocked acct.client_id), s0)
    else
      match t.parse_amount with
      | .error e => (.error e, s0)
      | .ok amt =>
        match acct.sub_held amt with
        | .error e => (.error e, s0)
        | .ok a1 =>
          let s1 := setTx (setAccount s0 tx.client a1) tx.id t.mark_resolved
          match a1.add_available amt with
          | .error e => (.error e, s1)
          | .ok a2 => (.ok (), setAccount s1 tx.client a2)

/-- Chargeback branch of `Tx::handle`: `sub_held`, then lock the account,
then reset the transaction's disputed flag. -/
def handleChargeback (tx : Tx) (acct : Account) (s0 : EngineState) :
    Except Error Unit × EngineState :=
  match s0.txs tx.id with
  | none => (.error .TxNotFound, s0)
  | some t =>
    if !t.disputed then (.error (.TxNotDisputed t.id), s0)
    else if acct.locked then (.error (.AccountLocked acct.client_id), s0)
    else
      match t.parse_amount with
      | .error e => (.error e, s0)
      | .ok amt =>
        match acct.sub_held amt with
        | .error e => (.error e, s0)
        | .ok a1 =>
          (.ok (), setTx (setAccount s0 tx.client (a1.set_locked true)) tx.id
            t.mark_charged_back)

/-- `Tx::handle` in src/payments.rs: resolve (lazily creating) the account,
then dispatch on the transaction kind.  The pair returned is the `Result`
together with the engine state after the call, including mutations that
happened before a failure. -/
def handle (tx : Tx) (s : EngineState) : Except Error Unit × EngineState :=
  let s0 := ensureAccount s tx.client
  match s0.accounts tx.client with
  | none => (.error (.UnexpectedMissingAccount tx.client), s0)
  | some acct =>
    match tx.type with
    | .Deposit => handleDeposit tx acct s0
    | .Withdrawal => handleWithdrawal tx acct s0
    | .Dispute => handleDispute tx acct s0
    | .Resolve => handleResolve tx acct s0
    | .Chargeback => handleChargeback tx acct s0

/-- One iteration of the ingestion loop in `Engine::handle_txs` for a record
that already passed (or failed, `none`) CSV deserialization: a failed parse
is skipped; otherwise the record is handled (its error, if any, only
logged) and then stored when storable. -/
def stepRecord (s : EngineState) (r : Option Tx) : EngineState :=
  match r with
  | none => s
  | some tx =>
    let s1 := (handle tx s).2
    if tx.storable then insertTx s1 tx else s1

/-- `Engine::handle_txs` in src/payments.rs: drain the record stream,
skipping records that fail to deserialize, logging and discarding handling
errors, storing storable records; always returns `Ok` (carrying the final
engine state in this functional model). -/
def handleTxs : List (Option Tx) → EngineState → Except String EngineState
  | [], s => .ok s
  | none :: rest, s => handleTxs rest s
  | some tx :: rest, s =>
    let s1 := (handle tx s).2
    let s2 := if tx.storable then insertTx s1 tx else s1
    handleTxs rest s2

/-- The empty engine of `Engine::new` over the two empty in-memory ledgers. -/
def initState : EngineState := ⟨fun _ => none, fun _ => none⟩

/-- The engine state after ingesting a record list from the empty engine. -/
def runRecords (rs : List (Option Tx)) : EngineState :=
  rs.foldl stepRecord initState

/-- A state the engine can be in after ingesting some record stream. -/
def Reachable (s : EngineState) : Prop := ∃ rs, runRecords rs = s

/-- Available balance visible at a client key (0 when absent). -/
def availOf (s : EngineState) (c : Nat) : Nat :=
  match s.accounts c with
  | some a => a.available
  | none => 0

/-- Held balance visible at a client key (0 when absent). -/
def heldOf (s : EngineState) (c : Nat) : Nat :=
  match s.accounts c with
  | some a => a.held
  | none => 0

/-- Locked flag visible at a client key (false when absent). -/
def lockedOf (s : EngineState) (c : Nat) : Bool :=
  match s.accounts c with
  | some a => a.locked
  | none => false

/-- Disputed flag of the stored transaction at an id (false when absent). -/
def disputedOf (s : EngineState) (i : Nat) : Bool :=
  match s.txs i with
  | some t => t.disputed
  | none => false

example : Tx.parse_amount ⟨.Deposit, 0, 0, some ("10", "1"), false⟩ = .ok 101000 := by decide

example : Tx.parse_amount ⟨.Deposit, 0, 0, some ("10", "01"), false⟩ = .ok 100100 := by decide

example : Tx.parse_amount ⟨.Deposit, 0, 0, some ("001", "01"), false⟩ = .ok 10100 := by decide

/-! Basic lemmas about the state maps and the checked account operations. -/

theorem upd_self {α : Type} (m : Nat → Option α) (k : Nat) (v : α) :
    upd m k v k = some v := by simp [upd]

theorem upd_ne {α : Type} (m : Nat → Option α) (k k2 : Nat) (v : α) (h : k2 ≠ k) :
    upd m k v k2 = m k2 := by simp [upd, h]

theorem setAccount_accounts (s : EngineState) (c : Nat) (a : Account) :
    (setAccount s c a).accounts = upd s.accounts c a := rfl

theorem setAccount_txs (s : EngineState) (c : Nat) (a : Account) :
    (setAccount s c a).txs = s.txs := rfl

theorem setTx_accounts (s : EngineState) (i : Nat) (t : Tx) :
    (setTx s i t).accounts = s.accounts := rfl

theorem setTx_txs (s : EngineState) (i : Nat) (t : Tx) :
    (setTx s i t).txs = upd s.txs i t := rfl

theorem ensureAccount_of_some {s : EngineState} {c : Nat} {a : Account}
    (h : s.accounts c = some a) : ensureAccount s c = s := by
  simp [ensureAccount, h]

theorem ensureAccount_of_none {s : EngineState} {c : Nat}
    (h : s.accounts c = none) :
    ensureAccount s c = setAccount s c (Account.new_unlocked c) := by
  simp [ensureAccount, h]

theorem ensureAccount_accounts_ne {s : EngineState} {c c2 : Nat} (h : c2 ≠ c) :
    (ensureAccount s c).accounts c2 = s.accounts c2 := by
  unfold ensureAccount
  cases hc : s.accounts c with
  | some a => rfl
  | none => simp [setAccount_accounts, upd_ne _ _ _ _ h]

theorem ensureAccount_txs (s : EngineState) (c : Nat) :
    (ensureAccount s c).txs = s.txs := by
  unfold ensureAccount
  cases hc : s.accounts c with
  | some a => rfl
  | none => rfl

theorem add_available_ok {a : Account} {amt : Nat} {a2 : Account}
    (h : a.add_available amt = .ok a2) :
    a2 = { a with available := a.available + amt } ∧ a.available + amt ≤ U128MAX := by
  unfold Account.add_available at h
  split at h
  · exact ⟨(Except.ok.injEq _ _).mp h.symm ▸ rfl, by assumption⟩
  · exact absurd h (by simp)

theorem add_available_error {a : Account} {amt : Nat} {e : Error}
    (h : a.add_available amt = .error e) : e = .MaxAvailableOverflow := by
  unfold Account.add_available at h
  split at h
  · exact absurd h (by simp)
  · exact ((Except.error.injEq _ _).mp h).symm

theorem sub_available_ok {a : Account} {amt : Nat} {a2 : Account}
    (h : a.sub_available amt = .ok a2) :
    a2 = { a with available := a.available - amt } ∧ amt ≤ a.available := by
  unfold Account.sub_available at h
  split at h
  · exact ⟨(Except.ok.injEq _ _).mp h.symm ▸ rfl, by assumption⟩
  · exact absurd h (by simp)

theorem sub_available_error {a : Account} {amt : Nat} {e : Error}
    (h : a.sub_available amt = .error e) : e = .MinAvailableUnderflow := by
  unfold Account.sub_available at h
  split at h
  · exact absurd h (by simp)
  · exact ((Except.error.injEq _ _).mp h).symm

theorem add_held_ok {a : Account} {amt : Nat} {a2 : Account}
    (h : a.add_held amt = .ok a2) :
    a2 = { a with held := a.held + amt } ∧ a.held + amt ≤ U128MAX := by
  unfold Account.add_held at h
  split at h
  · exact ⟨(Except.ok.injEq _ _).mp h.symm ▸ rfl, by assumption⟩
  · exact absurd h (by simp)

theorem add_held_error {a : Account} {amt : Nat} {e : Error}
    (h : a.add_held amt = .error e) : e = .MaxHeldOverflow := by
  unfold Account.add_held at h
  split at h
  · exact absurd h (by simp)
  · exact ((Except.error.injEq _ _).mp h).symm

theorem sub_held_ok {a : Account} {amt : Nat} {a2 : Account}
    (h : a.sub_held amt = .ok a2) :
    a2 = { a with held := a.held - amt } ∧ amt ≤ a.held := by
  unfold Account.sub_held at h
  split at h
  · exact ⟨(Except.ok.injEq _ _).mp h.symm ▸ rfl, by assumption⟩
  · exact absurd h (by simp)

theorem sub_held_error {a : Account} {amt : Nat} {e : Error}
    (h : a.sub_held amt = .error e) : e = .MinHeldUnderflow := by
  unfold Account.sub_held at h
  split at h
  · exact absurd h (by simp)
  · exact ((Except.error.injEq _ _).mp h).symm

/-! Structural lemmas about `handle`: which keys each branch can touch. -/

theorem handleDeposit_accounts_ne (tx : Tx) (acct : Account) (s0 : EngineState)
    (c : Nat) (hne : c ≠ tx.client) :
    ((handleDeposit tx acct s0).2).accounts c = s0.accounts c := by
  unfold handleDeposit
  split
  · rfl
  · split
    · rfl
    · split
      · rfl
      · simp [setAccount_accounts, upd_ne _ _ _ _ hne]

theorem handleWithdrawal_accounts_ne (tx : Tx) (acct : Account) (s0 : EngineState)
    (c : Nat) (hne : c ≠ tx.client) :
    ((handleWithdrawal tx acct s0).2).accounts c = s0.accounts c := by
  unfold handleWithdrawal
  split
  · rfl
  · split
    · rfl
    · split
      · rfl
      · simp [setAccount_accounts, upd_ne _ _ _ _ hne]

theorem handleDispute_accounts_ne (tx : Tx) (acct : Account) (s0 : EngineState)
    (c : Nat) (hne : c ≠ tx.client) :
    ((handleDispute tx acct s0).2).accounts c = s0.accounts c := by
  unfold handleDispute
  split
  · rfl
  · split
    · rfl
    · split
      · rfl
      · split
        · rfl
        · split
          · rfl
          · split
            · rfl
            · split
              · simp [setTx_accounts, setAccount_accounts, upd_ne _ _ _ _ hne]
              · simp [setTx_accounts, setAccount_accounts, upd_ne _ _ _ _ hne]

theorem handleResolve_accounts_ne (tx : Tx) (acct : Account) (s0 : EngineState)
    (c : Nat) (hne : c ≠ tx.client) :
    ((handleResolve tx acct s0).2).accounts c = s0.accounts c := by
  unfold handleResolve
  split
  · rfl
  · split
    · rfl
    · split
      · rfl
      · split
        · rfl
        · split
          · rfl
          · split
            · simp [setTx_accounts, setAccount_accounts, upd_ne _ _ _ _ hne]
            · simp [setTx_accounts, setAccount_accounts, upd_ne _ _ _ _ hne]

theorem handleChargeback_accounts_ne (tx : Tx) (acct : Account) (s0 : EngineState)
    (c : Nat) (hne : c ≠ tx.client) :
    ((handleChargeback tx acct s0).2).accounts c = s0.accounts c := by
  unfold handleChargeback
  split
  · rfl
  · split
    · rfl
    · split
      · rfl
      · split
        · rfl
        · split
          · rfl
          · simp [setTx_accounts, setAccount_accounts, upd_ne _ _ _ _ hne]

/-- A transaction only ever writes the account entry of its own client: any
other client's stored account is untouched by `Tx::handle`. -/
theorem handle_accounts_ne (tx : Tx) (s : EngineState) (c : Nat)
    (hne : c ≠ tx.client) :
    ((handle tx s).2).accounts c = s.accounts c := by
  have hens : (ensureAccount s tx.client).accounts c = s.accounts c :=
    ensureAccount_accounts_ne hne
  unfold handle
  cases hacc : (ensureAccount s tx.client).accounts tx.client with
  | none => simpa [hacc] using hens
  | some acct =>
    cases htype : tx.type <;>
      simp only [hacc, htype] <;>
      first
        | (rw [handleDispute_accounts_ne tx acct _ c hne]; exact hens)
        | (rw [handleResolve_accounts_ne tx acct _ c hne]; exact hens)
        | (rw [handleChargeback_accounts_ne tx acct _ c hne]; exact hens)
        | (rw [handleDeposit_accounts_ne tx acct _ c hne]; exact hens)
        | (rw [handleWithdrawal_accounts_ne tx acct _ c hne]; exact hens)

theorem upd_isSome_of_some {α : Type} (m : Nat → Option α) (k : Nat) (v : α)
    (i : Nat) (h : (m k).isSome = true) :
    (upd m k v i).isSome = (m i).isSome := by
  unfold upd
  by_cases hik : i = k
  · subst hik; simp [h]
  · simp [hik]

theorem handleDispute_txs_isSome (tx : Tx) (acct : Account) (s0 : EngineState)
    (i : Nat) :
    (((handleDispute tx acct s0).2).txs i).isSome = (s0.txs i).isSome := by
  unfold handleDispute
  cases ht : s0.txs tx.id with
  | none => rfl
  | some t =>
    have hsome : (s0.txs tx.id).isSome = true := by rw [ht]; rfl
    simp only
    split
    · rfl
    · split
      · rfl
      · split
        · rfl
        · split
          · rfl
          · split
            · rfl
            · split
              · simp [setTx_txs, setAccount_txs, upd_isSome_of_some _ _ _ _ hsome]
              · simp [setTx_txs, setAccount_txs, upd_isSome_of_some _ _ _ _ hsome]

theorem handleResolve_txs_isSome (tx : Tx) (acct : Account) (s0 : EngineState)
    (i : Nat) :
    (((handleResolve tx acct s0).2).txs i).isSome = (s0.txs i).isSome := by
  unfold handleResolve
  cases ht : s0.txs tx.id with
  | none => rfl
  | some t =>
    have hsome : (s0.txs tx.id).isSome = true := by rw [ht]; rfl
    simp only
    split
    · rfl
    · split
      · rfl
      · split
        · rfl
        · split
          · rfl
          · split
            · simp [setTx_txs, setAccount_txs, upd_isSome_of_some _ _ _ _ hsome]
            · simp [setTx_txs, setAccount_txs, upd_isSome_of_some _ _ _ _ hsome]

theorem handleChargeback_txs_isSome (tx : Tx) (acct : Account) (s0 : EngineState)
    (i : Nat) :
    (((handleChargeback tx acct s0).2).txs i).isSome = (s0.txs i).isSome := by
  unfold handleChargeback
  cases ht : s0.txs tx.id with
  | none => rfl
  | some t =>
    have hsome : (s0.txs tx.id).isSome = true := by rw [ht]; rfl
    simp only
    split
    · rfl
    · split
      · rfl
      · split
        · rfl
        · split
          · rfl
          · simp [setTx_txs, setAccount_txs, upd_isSome_of_some _ _ _ _ hsome]

theorem handleDeposit_txs (tx : Tx) (acct : Account) (s0 : EngineState) :
    ((handleDeposit tx acct s0).2).txs = s0.txs := by
  unfold handleDeposit
  split
  · rfl
  · split
    · rfl
    · split
      · rfl
      · rfl

theorem handleWithdrawal_txs (tx : Tx) (acct : Account) (s0 : EngineState) :
    ((handleWithdrawal tx acct s0).2).txs = s0.txs := by
  unfold handleWithdrawal
  split
  · rfl
  · split
    · rfl
    · split
      · rfl
      · rfl

/-- `Tx::handle` never inserts or removes a key of the transaction store: it
only mutates (marks) transactions that are already stored. -/
theorem handle_txs_isSome (tx : Tx) (s : EngineState) (i : Nat) :
    (((handle tx s).2).txs i).isSome = (s.txs i).isSome := by
  have hens : (ensureAccount s tx.client).txs = s.txs := ensureAccount_txs s tx.client
  unfold handle
  cases hacc : (ensureAccount s tx.client).accounts tx.client with
  | none => simp [hacc, hens]
  | some acct =>
    cases htype : tx.type <;> simp only [hacc, htype]
    · rw [handleDispute_txs_isSome, hens]
    · rw [handleResolve_txs_isSome, hens]
    · rw [handleChargeback_txs_isSome, hens]
    · rw [handleDeposit_txs, hens]
    · rw [handleWithdrawal_txs, hens]

/-! Locked accounts: every branch checks `is_locked` before any mutation. -/

theorem handleDeposit_locked (tx : Tx) (acct : Account) (s0 : EngineState)
    (hl : acct.locked = true) :
    handleDeposit tx acct s0 = (.error (.AccountLocked acct.client_id), s0) := by
  simp [handleDeposit, hl]

theorem handleWithdrawal_locked (tx : Tx) (acct : Account) (s0 : EngineState)
    (hl : acct.locked = true) :
    handleWithdrawal tx acct s0 = (.error (.AccountLocked acct.client_id), s0) := by
  simp [handleWithdrawal, hl]

theorem handleDispute_locked (tx : Tx) (acct : Account) (s0 : EngineState)
    (hl : acct.locked = true) :
    ∃ e, handleDispute tx acct s0 = (.error e, s0) := by
  unfold handleDispute
  cases ht : s0.txs tx.id with
  | none => exact ⟨.TxNotFound, rfl⟩
  | some t => exact ⟨.AccountLocked acct.client_id, by simp [hl]⟩

theorem handleResolve_locked (tx : Tx) (acct : Account) (s0 : EngineState)
    (hl : acct.locked = true) :
    ∃ e, handleResolve tx acct s0 = (.error e, s0) := by
  unfold handleResolve
  cases ht : s0.txs tx.id with
  | none => exact ⟨.TxNotFound, rfl⟩
  | some t =>
    cases hd : t.disputed with
    | false => exact ⟨.TxNotDisputed t.id, by simp [hd]⟩
    | true => exact ⟨.AccountLocked acct.client_id, by simp [hd, hl]⟩

theorem handleChargeback_locked (tx : Tx) (acct : Account) (s0 : EngineState)
    (hl : acct.locked = true) :
    ∃ e, handleChargeback tx acct s0 = (.error e, s0) := by
  unfold handleChargeback
  cases ht : s0.txs tx.id with
  | none => exact ⟨.TxNotFound, rfl⟩
  | some t =>
    cases hd : t.disputed with
    | false => exact ⟨.TxNotDisputed t.id, by simp [hd]⟩
    | true => exact ⟨.AccountLocked acct.client_id, by simp [hd, hl]⟩

/-- When the client's stored account is locked, `Tx::handle` fails before
performing any mutation: the returned state is exactly the input state. -/
theorem handle_locked (tx : Tx) (s : EngineState) (acc : Account)
    (hacc : s.accounts tx.client = some acc) (hl : acc.locked = true) :
    ∃ e, handle tx s = (.error e, s) := by
  have hs0 : ensureAccount s tx.client = s := ensureAccount_of_some hacc
  unfold handle
  rw [hs0]
  cases htype : tx.type <;> simp only [hacc, htype]
  · exact handleDispute_locked tx acc s hl
  · exact handleResolve_locked tx acc s hl
  · exact handleChargeback_locked tx acc s hl
  · exact ⟨.AccountLocked acc.client_id, handleDeposit_locked tx acc s hl⟩
  · exact ⟨.AccountLocked acc.client_id, handleWithdrawal_locked tx acc s hl⟩

/-- A deposit against a locked account fails with `AccountLocked` and leaves
the state untouched. -/
theorem handle_locked_deposit (tx : Tx) (s : EngineState) (acc : Account)
    (htype : tx.type = .Deposit)
    (hacc : s.accounts tx.client = some acc) (hl : acc.locked = true) :
    handle tx s = (.error (.AccountLocked acc.client_id), s) := by
  have hs0 : ensureAccount s tx.client = s := ensureAccount_of_some hacc
  unfold handle
  rw [hs0]
  simp only [hacc, htype]
  exact handleDeposit_locked tx acc s hl

theorem insertTx_accounts (s : EngineState) (t : Tx) :
    (insertTx s t).accounts = s.accounts := rfl

theorem stepRecord_accounts_of_locked (s : EngineState) (c : Nat) (acc : Account)
    (hacc : s.accounts c = some acc) (hl : acc.locked = true) (r : Option Tx) :
    (stepRecord s r).accounts c = some acc := by
  cases r with
  | none => exact hacc
  | some tx =>
    have hstep : (stepRecord s (some tx)).accounts c = ((handle tx s).2).accounts c := by
      unfold stepRecord
      cases hst : tx.storable <;> simp [hst, insertTx_accounts]
    rw [hstep]
    by_cases hc : c = tx.client
    · subst hc
      obtain ⟨e, he⟩ := handle_locked tx s acc hacc hl
      rw [he]
      exact hacc
    · rw [handle_accounts_ne tx s c hc]
      exact hacc

theorem foldl_accounts_of_locked (c : Nat) (acc : Account) (hl : acc.locked = true) :
    ∀ (rs : List (Option Tx)) (s : EngineState), s.accounts c = some acc →
      (rs.foldl stepRecord s).accounts c = some acc := by
  intro rs
  induction rs with
  | nil => intro s hacc; exact hacc
  | cons r rest ih =>
    intro s hacc
    exact ih (stepRecord s r) (stepRecord_accounts_of_locked s c acc hacc hl r)

/-- Claim C1: in every reachable engine state, once an account's locked flag
is true, no subsequently ingested Deposit, Withdrawal, Dispute, Resolve or
Chargeback record (in particular none applied against that account) changes
its available or held balance: the stored account record stays exactly as
it was, and stays locked. -/
theorem claim_C1_locked_account_balances_frozen (s : EngineState)
    (_hs : Reachable s) (c : Nat) (acc : Account)
    (hacc : s.accounts c = some acc) (hl : acc.locked = true)
    (rs : List (Option Tx)) :
    ∃ acc2, (rs.foldl stepRecord s).accounts c = some acc2 ∧
      acc2.available = acc.available ∧ acc2.held = acc.held ∧ acc2.locked = true := by
  refine ⟨acc, foldl_accounts_of_locked c acc hl rs s hacc, rfl, rfl, hl⟩

/-- Record stream locking client 1 via deposit, dispute, chargeback. -/
def c1recs : List (Option Tx) :=
  [some ⟨.Deposit, 1, 1, some ("10", "1"), false⟩,
   some ⟨.Dispute, 1, 1, none, false⟩,
   some ⟨.Chargeback, 1, 1, none, false⟩]

theorem claim_C1_witness :
    ∃ acc2,
      (([some ⟨.Deposit, 1, 7, some ("5", "0"), false⟩] : List (Option Tx)).foldl
          stepRecord (runRecords c1recs)).accounts 1 = some acc2 ∧
        acc2.available = 0 ∧ acc2.held = 0 ∧ acc2.locked = true :=
  claim_C1_locked_account_balances_frozen (runRecords c1recs) ⟨c1recs, rfl⟩ 1
    ⟨1, 0, 0, true⟩ (by decide) rfl
    [some ⟨.Deposit, 1, 7, some ("5", "0"), false⟩]

/-! Range invariant: every stored account's fields stay within `u128`. -/

/-- Every account in the store has `available` and `held` within `u128`. -/
def AccountsOk (s : EngineState) : Prop :=
  ∀ c a, s.accounts c = some a → a.available ≤ U128MAX ∧ a.held ≤ U128MAX

theorem AccountsOk_setAccount {s : EngineState} {c : Nat} {a : Account}
    (hs : AccountsOk s) (h1 : a.available ≤ U128MAX) (h2 : a.held ≤ U128MAX) :
    AccountsOk (setAccount s c a) := by
  intro c2 a2 h
  rw [setAccount_accounts] at h
  unfold upd at h
  by_cases hc : c2 = c
  · rw [if_pos hc] at h
    cases h
    exact ⟨h1, h2⟩
  · rw [if_neg hc] at h
    exact hs c2 a2 h

theorem AccountsOk_setTx {s : EngineState} {i : Nat} {t : Tx}
    (hs : AccountsOk s) : AccountsOk (setTx s i t) := by
  intro c a h
  rw [setTx_accounts] at h
  exact hs c a h

theorem AccountsOk_ensureAccount {s : EngineState} (c : Nat)
    (hs : AccountsOk s) : AccountsOk (ensureAccount s c) := by
  unfold ensureAccount
  cases hc : s.accounts c with
  | some a => exact hs
  | none =>
    exact AccountsOk_setAccount hs (Nat.zero_le _) (Nat.zero_le _)

theorem AccountsOk_handleDeposit {tx : Tx} {acct : Account} {s0 : EngineState}
    (hs : AccountsOk s0) (hheld : acct.held ≤ U128MAX) :
    AccountsOk ((handleDeposit tx acct s0).2) := by
  unfold handleDeposit
  split
  · exact hs
  · split
    · exact hs
    · split
      · exact hs
      · rename_i a2 hadd
        obtain ⟨ha2, hle⟩ := add_available_ok hadd
        subst ha2
        exact AccountsOk_setAccount hs hle hheld

theorem AccountsOk_handleWithdrawal {tx : Tx} {acct : Account} {s0 : EngineState}
    (hs : AccountsOk s0) (havail : acct.available ≤ U128MAX)
    (hheld : acct.held ≤ U128MAX) :
    AccountsOk ((handleWithdrawal tx acct s0).2) := by
  unfold handleWithdrawal
  split
  · exact hs
  · split
    · exact hs
    · split
      · exact hs
      · rename_i a2 hsub
        obtain ⟨ha2, hle⟩ := sub_available_ok hsub
        subst ha2
        exact AccountsOk_setAccount hs (le_trans (Nat.sub_le _ _) havail) hheld

theorem AccountsOk_handleDispute {tx : Tx} {acct : Account} {s0 : EngineState}
    (hs : AccountsOk s0) (havail : acct.available ≤ U128MAX)
    (hheld : acct.held ≤ U128MAX) :
    AccountsOk ((handleDispute tx acct s0).2) := by
  unfold handleDispute
  split
  · exact hs
  · split
    · exact hs
    · split
      · exact hs
      · split
        · exact hs
        · split
          · exact hs
          · split
            · exact hs
            · rename_i a1 hsub
              obtain ⟨ha1, hle⟩ := sub_available_ok hsub
              have hb1 : a1.available ≤ U128MAX := by
                rw [ha1]; exact le_trans (Nat.sub_le _ _) havail
              have hb2 : a1.held ≤ U128MAX := by rw [ha1]; exact hheld
              split
              · exact AccountsOk_setTx (AccountsOk_setAccount hs hb1 hb2)
              · rename_i a2 hadd
                obtain ⟨ha2, hle2⟩ := add_held_ok hadd
                subst ha2
                exact AccountsOk_setAccount
                  (AccountsOk_setTx (AccountsOk_setAccount hs hb1 hb2)) hb1 hle2

theorem AccountsOk_handleResolve {tx : Tx} {acct : Account} {s0 : EngineState}
    (hs : AccountsOk s0) (havail : acct.available ≤ U128MAX)
    (hheld : acct.held ≤ U128MAX) :
    AccountsOk ((handleResolve tx acct s0).2) := by
  unfold handleResolve
  split
  · exact hs
  · split
    · exact hs
    · split
      · exact hs
      · split
        · exact hs
        · split
          · exact hs
          · rename_i a1 hsub
            obtain ⟨ha1, hle⟩ := sub_held_ok hsub
            have hb1 : a1.available ≤ U128MAX := by rw [ha1]; exact havail
            have hb2 : a1.held ≤ U128MAX := by
              rw [ha1]; exact le_trans (Nat.sub_le _ _) hheld
            split
            · exact AccountsOk_setTx (AccountsOk_setAccount hs hb1 hb2)
            · rename_i a2 hadd
              obtain ⟨ha2, hle2⟩ := add_available_ok hadd
              subst ha2
              exact AccountsOk_setAccount
                (AccountsOk_setTx (AccountsOk_setAccount hs hb1 hb2)) hle2 hb2

theorem AccountsOk_handleChargeback {tx : Tx} {acct : Account} {s0 : EngineState}
    (hs : AccountsOk s0) (havail : acct.available ≤ U128MAX)
    (hheld : acct.held ≤ U128MAX) :
    AccountsOk ((handleChargeback tx acct s0).2) := by
  unfold handleChargeback
  split
  · exact hs
  · split
    · exact hs
    · split
      · exact hs
      · split
        · exact hs
        · split
          · exact hs
          · rename_i a1 hsub
            obtain ⟨ha1, hle⟩ := sub_held_ok hsub
            exact AccountsOk_setTx (AccountsOk_setAccount hs
              (by rw [ha1]; exact havail)
              (by rw [ha1]; exact le_trans (Nat.sub_le _ _) hheld))

theorem AccountsOk_handle (tx : Tx) (s : EngineState) (hs : AccountsOk s) :
    AccountsOk ((handle tx s).2) := by
  have hs0 : AccountsOk (ensureAccount s tx.client) :=
    AccountsOk_ensureAccount tx.client hs
  unfold handle
  cases hacc : (ensureAccount s tx.client).accounts tx.client with
  | none => simpa [hacc] using hs0
  | some acct =>
    obtain ⟨h1, h2⟩ := hs0 tx.client acct hacc
    cases htype : tx.type <;> simp only [hacc, htype]
    · exact AccountsOk_handleDispute hs0 h1 h2
    · exact AccountsOk_handleResolve hs0 h1 h2
    · exact AccountsOk_handleChargeback hs0 h1 h2
    · exact AccountsOk_handleDeposit hs0 h2
    · exact AccountsOk_handleWithdrawal hs0 h1 h2

theorem AccountsOk_insertTx {s : EngineState} (t : Tx) (hs : AccountsOk s) :
    AccountsOk (insertTx s t) := AccountsOk_setTx hs

theorem AccountsOk_stepRecord (s : EngineState) (r : Option Tx)
    (hs : AccountsOk s) : AccountsOk (stepRecord s r) := by
  cases r with
  | none => exact hs
  | some tx =>
    unfold stepRecord
    cases hst : tx.storable <;>
      simp only [hst, if_true, if_false, Bool.false_eq_true]
    · exact AccountsOk_handle tx s hs
    · exact AccountsOk_insertTx tx (AccountsOk_handle tx s hs)

theorem AccountsOk_foldl :
    ∀ (rs : List (Option Tx)) (s : EngineState), AccountsOk s →
      AccountsOk (rs.foldl stepRecord s) := by
  intro rs
  induction rs with
  | nil => intro s hs; exact hs
  | cons r rest ih => intro s hs; exact ih _ (AccountsOk_stepRecord s r hs)

theorem AccountsOk_initState : AccountsOk initState := by
  intro c a h
  exact absurd h (by simp [initState])

theorem AccountsOk_reachable {s : EngineState} (hs : Reachable s) : AccountsOk s := by
  obtain ⟨rs, hrs⟩ := hs
  rw [← hrs]
  exact AccountsOk_foldl rs initState AccountsOk_initState

/-- Claim C2 (amended): in every reachable engine state each account's
`available` and `held` fields individually lie within the `u128` range, but
their sum may exceed `u128::MAX` (see the counterexample), so the unchecked
addition in `Account::total` is well-defined only when the sum fits. -/
theorem claim_C2_account_fields_in_u128_range (s : EngineState)
    (hs : Reachable s) (c : Nat) (a : Account) (h : s.accounts c = some a) :
    a.available ≤ U128MAX ∧ a.held ≤ U128MAX :=
  AccountsOk_reachable hs c a h

/-- Record stream reaching a state where `available + held` exceeds
`u128::MAX`: a huge deposit is disputed (moving it to `held`) and a further
deposit is then checked only against `available`. -/
def c2recs : List (Option Tx) :=
  [some ⟨.Deposit, 1, 1, some ("34028236692093846346337460743176821", "0"), false⟩,
   some ⟨.Dispute, 1, 1, none, false⟩,
   some ⟨.Deposit, 1, 2, some ("1", "0"), false⟩]

/-- Claim C2 is false as stated: the engine reaches (from the empty state,
via `c2recs`) an account whose mathematical `available + held` exceeds
`u128::MAX`, so the unchecked `u128` addition in `Account::total` overflows
there and the machine result differs from `available + held`. -/
theorem claim_C2_counterexample :
    ((runRecords c2recs).accounts 1).isSome = true ∧
    U128MAX < availOf (runRecords c2recs) 1 + heldOf (runRecords c2recs) 1 ∧
    (availOf (runRecords c2recs) 1 + heldOf (runRecords c2recs) 1) % 2 ^ 128 ≠
      availOf (runRecords c2recs) 1 + heldOf (runRecords c2recs) 1 := by
  decide

theorem claim_C2_witness :
    (⟨1, 10000, 340282366920938463463374607431768210000, false⟩ : Account).available
        ≤ U128MAX ∧
      (⟨1, 10000, 340282366920938463463374607431768210000, false⟩ : Account).held
        ≤ U128MAX :=
  claim_C2_account_fields_in_u128_range (runRecords c2recs) ⟨c2recs, rfl⟩ 1
    ⟨1, 10000, 340282366920938463463374607431768210000, false⟩ (by decide)

/-- Claim C3 (amended): a Dispute that fails with any error other than the
held-side overflow (`TxNotFound`, `AccountLocked`, `InvalidDispute`,
`TxAlreadyDisputed`, an invalid stored amount, or the available-side
underflow) leaves the whole engine state exactly as it was, and a Dispute
that succeeds moves the amount from available to held, leaving
`available + held` unchanged and marking the stored transaction disputed.
A held-side overflow (`MaxHeldOverflow`), however, strikes after
`sub_available` and `mark_disputed` have already been applied, so that one
failure is not atomic (see the counterexample). -/
theorem claim_C3_dispute_atomicity (tx : Tx) (s : EngineState)
    (acc : Account) (htype : tx.type = .Dispute)
    (hacc : s.accounts tx.client = some acc) :
    ((handle tx s).1 = .ok () →
      ∃ t amt, s.txs tx.id = some t ∧ t.parse_amount = .ok amt ∧
        amt ≤ acc.available ∧ acc.held + amt ≤ U128MAX ∧
        (handle tx s).2.accounts tx.client =
          some ⟨acc.client_id, acc.available - amt, acc.held + amt, acc.locked⟩ ∧
        (handle tx s).2.txs tx.id = some t.mark_disputed ∧
        (acc.available - amt) + (acc.held + amt) = acc.available + acc.held) ∧
    (∀ e, (handle tx s).1 = .error e → e ≠ .MaxHeldOverflow →
      (handle tx s).2 = s) := by
  have hs0 : ensureAccount s tx.client = s := ensureAccount_of_some hacc
  have hD : handle tx s = handleDispute tx acc s := by
    unfold handle
    rw [hs0]
    simp only [hacc, htype]
  rw [hD]
  unfold handleDispute
  cases ht : s.txs tx.id with
  | none =>
    exact ⟨fun hok => absurd hok (by simp), fun e he hne => rfl⟩
  | some t =>
    simp only
    split
    · exact ⟨fun hok => absurd hok (by simp), fun e he hne => rfl⟩
    · split
      · exact ⟨fun hok => absurd hok (by simp), fun e he hne => rfl⟩
      · split
        · exact ⟨fun hok => absurd hok (by simp), fun e he hne => rfl⟩
        · split
          · exact ⟨fun hok => absurd hok (by simp), fun e he hne => rfl⟩
          · rename_i amt hparse
            split
            · exact ⟨fun hok => absurd hok (by simp), fun e he hne => rfl⟩
            · rename_i a1 hsub
              obtain ⟨ha1, hle⟩ := sub_available_ok hsub
              subst ha1
              split
              · rename_i e0 hadd
                have he0 := add_held_error hadd
                refine ⟨fun hok => absurd hok (by simp), fun e he hne => ?_⟩
                simp only [Except.error.injEq] at he
                exact absurd (he ▸ he0) hne
              · rename_i a2 hadd
                obtain ⟨ha2, hle2⟩ := add_held_ok hadd
                subst ha2
                refine ⟨fun _ => ⟨t, amt, rfl, hparse, hle, ?_, ?_, ?_, ?_⟩,
                  fun e he hne => absurd he (by simp)⟩
                · simpa using hle2
                · rw [setAccount_accounts, upd_self]
                · rw [setAccount_txs, setTx_txs, upd_self]
                · omega

/-- Record stream whose state makes the next dispute overflow `held` after
its `sub_available` has already succeeded. -/
def c3recs : List (Option Tx) :=
  [some ⟨.Deposit, 1, 1, some ("34028236692093846346337460743176821", "0"), false⟩,
   some ⟨.Dispute, 1, 1, none, false⟩,
   some ⟨.Deposit, 1, 2, some ("1", "0"), false⟩]

/-- Claim C3 is false as stated: from the empty engine, after `c3recs`, the
dispute of transaction 2 returns an error (`MaxHeldOverflow`) yet the
account's available balance has been decremented (10000 to 0) and the
referenced transaction's disputed flag has been set — a non-atomic
failure. -/
theorem claim_C3_counterexample :
    (handle ⟨.Dispute, 1, 2, none, false⟩ (runRecords c3recs)).1 =
        .error .MaxHeldOverflow ∧
      availOf (runRecords c3recs) 1 = 10000 ∧
      availOf (handle ⟨.Dispute, 1, 2, none, false⟩ (runRecords c3recs)).2 1 = 0 ∧
      disputedOf (runRecords c3recs) 2 = false ∧
      disputedOf (handle ⟨.Dispute, 1, 2, none, false⟩ (runRecords c3recs)).2 2 =
        true := by
  decide

/-- Record stream with one stored deposit for client 1. -/
def c3wrecs : List (Option Tx) :=
  [some ⟨.Deposit, 1, 1, some ("10", "1"), false⟩]

theorem claim_C3_witness :
    (handle ⟨.Dispute, 1, 2, none, false⟩ (runRecords c3wrecs)).2 =
      runRecords c3wrecs := by
  have h := claim_C3_dispute_atomicity ⟨.Dispute, 1, 2, none, false⟩
    (runRecords c3wrecs) ⟨1, 101000, 0, false⟩ rfl (by decide)
  exact h.2 .TxNotFound (by decide) (by decide)

/-- Scenario C record stream: deposit 10.1 for client 1 as transaction 1,
dispute it, charge it back. -/
def c4recs : List (Option Tx) :=
  [some ⟨.Deposit, 1, 1, some ("10", "1"), false⟩,
   some ⟨.Dispute, 1, 1, none, false⟩,
   some ⟨.Chargeback, 1, 1, none, false⟩]

/-- Claim C4: processing deposit (client 1, tx 1, amount 10.1), dispute of
tx 1 and chargeback of tx 1 from the empty engine yields for client 1 an
account with available = 0, held = 0 and locked = true, and every further
deposit for client 1 (any id, any amount) fails with `AccountLocked 1`
without changing the balances. -/
theorem claim_C4_scenario_chargeback :
    availOf (runRecords c4recs) 1 = 0 ∧ heldOf (runRecords c4recs) 1 = 0 ∧
      lockedOf (runRecords c4recs) 1 = true ∧
      ∀ (i : Nat) (amt : Option (String × String)),
        (handle ⟨.Deposit, 1, i, amt, false⟩ (runRecords c4recs)).1 =
            .error (.AccountLocked 1) ∧
          availOf (handle ⟨.Deposit, 1, i, amt, false⟩ (runRecords c4recs)).2 1 = 0 ∧
          heldOf (handle ⟨.Deposit, 1, i, amt, false⟩ (runRecords c4recs)).2 1 = 0 := by
  refine ⟨by decide, by decide, by decide, fun i amt => ?_⟩
  have h := handle_locked_deposit ⟨.Deposit, 1, i, amt, false⟩ (runRecords c4recs)
    ⟨1, 0, 0, true⟩ rfl
    ((by decide : (runRecords c4recs).accounts 1 = some ⟨1, 0, 0, true⟩) : _) rfl
  rw [h]
  exact ⟨rfl, by decide, by decide⟩

/-- Claim C5: one iteration of the ingestion loop inserts the record into
the transaction store (under its id, whether or not handling succeeded)
exactly when its kind is Deposit or Withdrawal; Dispute, Resolve and
Chargeback records are never inserted — they do not add any key to the
store. -/
theorem claim_C5_storable_insertion (s : EngineState) (tx : Tx) :
    (tx.storable = true → (stepRecord s (some tx)).txs tx.id = some tx) ∧
    (tx.storable = false →
      ∀ i, ((stepRecord s (some tx)).txs i).isSome = (s.txs i).isSome) := by
  constructor
  · intro hst
    unfold stepRecord
    simp [hst, insertTx, setTx_txs, upd_self]
  · intro hst i
    unfold stepRecord
    simp only [hst, Bool.false_eq_true, if_false]
    exact handle_txs_isSome tx s i

theorem claim_C5_witness :
    (stepRecord initState
        (some ⟨.Deposit, 3, 9, some ("1", "0"), false⟩)).txs 9 =
        some ⟨.Deposit, 3, 9, some ("1", "0"), false⟩ ∧
      ((stepRecord initState (some ⟨.Dispute, 3, 9, none, false⟩)).txs 9).isSome =
        (initState.txs 9).isSome :=
  ⟨(claim_C5_storable_insertion initState ⟨.Deposit, 3, 9, some ("1", "0"), false⟩).1 rfl,
   (claim_C5_storable_insertion initState ⟨.Dispute, 3, 9, none, false⟩).2 rfl 9⟩

/-- Claim C8: the ingestion loop always runs to the end of the stream and
returns `Ok`; a record that fails to deserialize or whose application
fails is skipped (its error only logged) and the remaining records are
processed exactly as the fold of the per-record step. -/
theorem claim_C8_ingestion_total (rs : List (Option Tx)) (s : EngineState) :
    handleTxs rs s = .ok (rs.foldl stepRecord s) := by
  induction rs generalizing s with
  | nil => rfl
  | cons r rest ih =>
    cases r with
    | none => simpa [handleTxs] using ih s
    | some tx => simp [handleTxs, stepRecord, ih]

theorem sub_available_eval {a : Account} {amt : Nat} (h : amt ≤ a.available) :
    a.sub_available amt = .ok { a with available := a.available - amt } := by
  unfold Account.sub_available
  rw [if_pos h]

theorem add_available_eval {a : Account} {amt : Nat}
    (h : a.available + amt ≤ U128MAX) :
    a.add_available amt = .ok { a with available := a.available + amt } := by
  unfold Account.add_available
  rw [if_pos h]

theorem sub_held_eval {a : Account} {amt : Nat} (h : amt ≤ a.held) :
    a.sub_held amt = .ok { a with held := a.held - amt } := by
  unfold Account.sub_held
  rw [if_pos h]

theorem add_held_eval {a : Account} {amt : Nat} (h : a.held + amt ≤ U128MAX) :
    a.add_held amt = .ok { a with held := a.held + amt } := by
  unfold Account.add_held
  rw [if_pos h]

/-- Claim C6 (amended): the engine performs no client-match check at all on a
Dispute: a Dispute referencing an existing stored transaction by id is
processed against the requesting client's own account, and whenever the
ordinary guards pass (requesting account unlocked, target a non-disputed
Deposit with a parseable amount not exceeding the requester's available
balance, no held overflow) it succeeds and moves the amount on the
requesting client's account — regardless of whether the stored
transaction's client matches the dispute's client. -/
theorem claim_C6_no_client_check (d : Tx) (s : EngineState) (t : Tx)
    (acc : Account) (hd : d.type = .Dispute) (ht : s.txs d.id = some t)
    (hacc : s.accounts d.client = some acc) (hlock : acc.locked = false)
    (htyp : t.type = .Deposit) (hdisp : t.disputed = false)
    (amt : Nat) (hamt : t.parse_amount = .ok amt)
    (hle : amt ≤ acc.available) (hheld : acc.held + amt ≤ U128MAX) :
    (handle d s).1 = .ok () ∧
      (handle d s).2.accounts d.client =
        some ⟨acc.client_id, acc.available - amt, acc.held + amt, acc.locked⟩ ∧
      (handle d s).2.txs d.id = some t.mark_disputed := by
  have hs0 : ensureAccount s d.client = s := ensureAccount_of_some hacc
  have hD : handle d s = handleDispute d acc s := by
    unfold handle
    rw [hs0]
    simp only [hacc, hd]
  rw [hD]
  unfold handleDispute
  rw [ht]
  simp only [hlock, htyp, hdisp, Bool.false_eq_true, if_false,
    ne_eq, not_true_eq_false, hamt, sub_available_eval hle,
    @add_held_eval ⟨acc.client_id, acc.available - amt, acc.held, false⟩ amt hheld]
  refine ⟨trivial, ?_, ?_⟩
  · rw [setAccount_accounts, upd_self]
  · rw [setAccount_txs, setTx_txs, upd_self]

/-- Two deposits by different clients; transaction 1 belongs to client 1. -/
def c6recs : List (Option Tx) :=
  [some ⟨.Deposit, 1, 1, some ("10", "0"), false⟩,
   some ⟨.Deposit, 2, 2, some ("10", "0"), false⟩]

/-- Claim C6 is false as stated: a Dispute by client 2 referencing client
1's stored transaction 1 does not fail like a missing transaction — it
succeeds, freezing funds of client 2's own account and marking client 1's
transaction disputed. -/
theorem claim_C6_counterexample :
    (runRecords c6recs).txs 1 = some ⟨.Deposit, 1, 1, some ("10", "0"), false⟩ ∧
      (handle ⟨.Dispute, 2, 1, none, false⟩ (runRecords c6recs)).1 = .ok () ∧
      availOf (runRecords c6recs) 2 = 100000 ∧
      heldOf (runRecords c6recs) 2 = 0 ∧
      availOf (handle ⟨.Dispute, 2, 1, none, false⟩ (runRecords c6recs)).2 2 = 0 ∧
      heldOf (handle ⟨.Dispute, 2, 1, none, false⟩ (runRecords c6recs)).2 2 = 100000 ∧
      disputedOf (handle ⟨.Dispute, 2, 1, none, false⟩ (runRecords c6recs)).2 1 =
        true := by
  decide

theorem claim_C6_witness :
    (handle ⟨.Dispute, 2, 1, none, false⟩ (runRecords c6recs)).1 = .ok () ∧
      (handle ⟨.Dispute, 2, 1, none, false⟩ (runRecords c6recs)).2.accounts 2 =
        some ⟨2, 0, 100000, false⟩ ∧
      (handle ⟨.Dispute, 2, 1, none, false⟩ (runRecords c6recs)).2.txs 1 =
        some ⟨.Deposit, 1, 1, some ("10", "0"), true⟩ :=
  claim_C6_no_client_check ⟨.Dispute, 2, 1, none, false⟩ (runRecords c6recs)
    ⟨.Deposit, 1, 1, some ("10", "0"), false⟩ ⟨2, 100000, 0, false⟩
    rfl (by decide) (by decide) rfl rfl rfl
    100000 (by decide) (by decide) (by decide)

/-- A Dispute against a locked account whose referenced transaction exists
fails with `AccountLocked`, leaving the state untouched. -/
theorem handle_locked_dispute (tx : Tx) (s : EngineState) (acc : Account)
    (htype : tx.type = .Dispute) (hacc : s.accounts tx.client = some acc)
    (hl : acc.locked = true) (t : Tx) (ht : s.txs tx.id = some t) :
    handle tx s = (.error (.AccountLocked acc.client_id), s) := by
  have hs0 : ensureAccount s tx.client = s := ensureAccount_of_some hacc
  unfold handle
  rw [hs0]
  simp only [hacc, htype]
  unfold handleDispute
  rw [ht]
  simp [hl]

/-- Claim C7 (amended): a successful Chargeback on a stored transaction does
not move it to a distinct terminal state — it merely resets its disputed
flag to false and locks the owning account.  A subsequent Dispute of the
same transaction by the same (now locked) client fails with
`AccountLocked`; but chargeback is not terminal for the transaction itself:
a Dispute referencing it from a different, unlocked and sufficiently funded
client succeeds and moves funds again (see the counterexample). -/
theorem claim_C7_chargeback_not_terminal (cb : Tx) (s : EngineState)
    (acc : Account) (htype : cb.type = .Chargeback)
    (hacc : s.accounts cb.client = some acc)
    (hok : (handle cb s).1 = .ok ()) :
    ∃ t amt, s.txs cb.id = some t ∧ t.parse_amount = .ok amt ∧
      (handle cb s).2.txs cb.id = some t.mark_charged_back ∧
      t.mark_charged_back.disputed = false ∧
      (handle cb s).2.accounts cb.client =
        some ⟨acc.client_id, acc.available, acc.held - amt, true⟩ ∧
      (∀ d : Tx, d.type = .Dispute → d.client = cb.client → d.id = cb.id →
        handle d (handle cb s).2 =
          (.error (.AccountLocked acc.client_id), (handle cb s).2)) := by
  have hs0 : ensureAccount s cb.client = s := ensureAccount_of_some hacc
  have hD : handle cb s = handleChargeback cb acc s := by
    unfold handle
    rw [hs0]
    simp only [hacc, htype]
  rw [hD] at hok ⊢
  unfold handleChargeback at hok ⊢
  cases ht : s.txs cb.id with
  | none =>
    rw [ht] at hok
    exact absurd hok (by simp)
  | some t =>
    simp only [ht] at hok ⊢
    cases hdisp : t.disputed with
    | false => simp [hdisp] at hok
    | true =>
      cases hlock2 : acc.locked with
      | true => simp [hdisp, hlock2] at hok
      | false =>
        simp only [hdisp, hlock2, Bool.not_true, Bool.false_eq_true, if_false,
          Bool.true_eq_false] at hok ⊢
        cases hp : t.parse_amount with
        | error e => simp [hp] at hok
        | ok amt =>
          simp only [hp] at hok ⊢
          cases hsub : acc.sub_held amt with
          | error e => simp [hsub] at hok
          | ok a1 =>
            obtain ⟨ha1, hle⟩ := sub_held_ok hsub
            subst ha1
            simp only [hsub] at hok ⊢
            refine ⟨t, amt, rfl, hp, ?_, rfl, ?_, ?_⟩
            · rw [setTx_txs, upd_self]
            · rw [setTx_accounts, setAccount_accounts, upd_self]
              rfl
            · intro d hdt hdc hdi
              refine handle_locked_dispute d _
                ⟨acc.client_id, acc.available, acc.held - amt, true⟩ hdt ?_ rfl
                t.mark_charged_back ?_
              · rw [hdc, setTx_accounts, setAccount_accounts, upd_self]
                rfl
              · rw [hdi, setTx_txs, upd_self]

/-- Deposit, dispute and chargeback for client 1, then a deposit funding
client 2: the setup for re-disputing client 1's charged-back transaction. -/
def c7recs : List (Option Tx) :=
  [some ⟨.Deposit, 1, 1, some ("10", "0"), false⟩,
   some ⟨.Dispute, 1, 1, none, false⟩,
   some ⟨.Chargeback, 1, 1, none, false⟩,
   some ⟨.Deposit, 2, 2, some ("10", "0"), false⟩]

/-- Claim C7 is false as stated: after transaction 1 is charged back (its
owner client 1 is locked and its disputed flag reset), a Dispute by the
unrelated client 2 referencing transaction 1 succeeds and moves funds
(client 2's 10.0 becomes held) because of transaction 1 again. -/
theorem claim_C7_counterexample :
    lockedOf (runRecords c7recs) 1 = true ∧
      disputedOf (runRecords c7recs) 1 = false ∧
      (handle ⟨.Dispute, 2, 1, none, false⟩ (runRecords c7recs)).1 = .ok () ∧
      availOf (handle ⟨.Dispute, 2, 1, none, false⟩ (runRecords c7recs)).2 2 = 0 ∧
      heldOf (handle ⟨.Dispute, 2, 1, none, false⟩ (runRecords c7recs)).2 2 =
        100000 ∧
      disputedOf (handle ⟨.Dispute, 2, 1, none, false⟩ (runRecords c7recs)).2 1 =
        true := by
  decide

/-- Deposit 10.1 for client 1 and dispute it: the setup for a chargeback. -/
def c7wrecs : List (Option Tx) :=
  [some ⟨.Deposit, 1, 1, some ("10", "1"), false⟩,
   some ⟨.Dispute, 1, 1, none, false⟩]

theorem claim_C7_witness :
    handle ⟨.Dispute, 1, 1, none, false⟩
        (handle ⟨.Chargeback, 1, 1, none, false⟩ (runRecords c7wrecs)).2 =
      (.error (.AccountLocked 1),
        (handle ⟨.Chargeback, 1, 1, none, false⟩ (runRecords c7wrecs)).2) := by
  obtain ⟨t, amt, ht, hp, hmark, hflag, haccs, hdisp⟩ :=
    claim_C7_chargeback_not_terminal ⟨.Chargeback, 1, 1, none, false⟩
      (runRecords c7wrecs) ⟨1, 0, 101000, false⟩ rfl (by decide) (by decide)
  exact hdisp ⟨.Dispute, 1, 1, none, false⟩ rfl rfl rfl

theorem digitVal_le_nine {c : Char} (h : isDigitChar c = true) : digitVal c ≤ 9 := by
  unfold isDigitChar at h
  rw [Bool.and_eq_true, decide_eq_true_eq, decide_eq_true_eq] at h
  unfold digitVal
  omega

theorem digitsToNat_aux_lt (l : List Char) (h : l.all isDigitChar = true) :
    ∀ acc : Nat,
      l.foldl (fun acc c => acc * 10 + digitVal c) acc < (acc + 1) * 10 ^ l.length := by
  induction l with
  | nil =>
    intro acc
    simp
  | cons c rest ih =>
    intro acc
    rw [List.all_cons, Bool.and_eq_true] at h
    have hd := digitVal_le_nine h.1
    have hrec := ih h.2 (acc * 10 + digitVal c)
    have hle : (acc * 10 + digitVal c + 1) * 10 ^ rest.length ≤
        (acc + 1) * 10 ^ (rest.length + 1) := by
      have hstep : acc * 10 + digitVal c + 1 ≤ (acc + 1) * 10 := by omega
      calc (acc * 10 + digitVal c + 1) * 10 ^ rest.length
          ≤ ((acc + 1) * 10) * 10 ^ rest.length :=
            Nat.mul_le_mul_right _ hstep
        _ = (acc + 1) * 10 ^ (rest.length + 1) := by ring
    simpa [List.length_cons] using lt_of_lt_of_le hrec hle

/-- A string of decimal digits of length n denotes a value below 10^n. -/
theorem digitsToNat_lt (l : List Char) (h : l.all isDigitChar = true) :
    digitsToNat l < 10 ^ l.length := by
  have := digitsToNat_aux_lt l h 0
  simpa [digitsToNat] using this

/-- `u128::from_str` on a nonempty string of digits whose value fits the
range returns that value. -/
theorem parseU128list_digits (l : List Char) (h1 : l ≠ [])
    (h2 : l.all isDigitChar = true) (h3 : digitsToNat l ≤ U128MAX) :
    parseU128list l = some (digitsToNat l) := by
  unfold parseU128list
  cases l with
  | nil => exact absurd rfl h1
  | cons c rest =>
    have hc : isDigitChar c = true := by
      rw [List.all_cons, Bool.and_eq_true] at h2
      exact h2.1
    have hcne : c ≠ '+' := by
      intro hEq
      rw [hEq] at hc
      exact absurd hc (by decide)
    simp only [if_neg hcne]
    simp [List.isEmpty, h2, h3]

/-- Claim C9 (amended): an amount whose fractional part is longer than 4
characters always fails to parse with an `InvalidAmount` error — in
particular the literal "1.00001" is split into ("1", "00001") and rejected
with the more-than-4-decimal-places error — and an amount whose whole and
fractional parts are nonempty digit strings with at most 4 fractional
digits parses to `whole * 10000 + fraction * 10^(4 - len)` provided that
whole scaled value (not merely the whole part) fits `u128`; when only the
whole part fits but adding the scaled fraction overflows, parsing fails
(see the counterexample). -/
theorem claim_C9_amount_parsing :
    (∀ (tx : Tx) (w f : String), tx.amount = some (w, f) → 4 < f.length →
      ∃ m, tx.parse_amount = .error (.InvalidAmount m)) ∧
    (deserialize_amount "1.00001" = .ok (some ("1", "00001")) ∧
      ∀ tx : Tx, tx.amount = some ("1", "00001") →
        tx.parse_amount =
          .error (.InvalidAmount "amount has more than 4 decimal places")) ∧
    (∀ (tx : Tx) (w f : String), tx.amount = some (w, f) →
      w.toList ≠ [] → w.toList.all isDigitChar = true →
      f.toList ≠ [] → f.toList.all isDigitChar = true → f.length ≤ 4 →
      digitsToNat w.toList * 10000 + digitsToNat f.toList * 10 ^ (4 - f.length) ≤
        U128MAX →
      tx.parse_amount =
        .ok (digitsToNat w.toList * 10000 +
          digitsToNat f.toList * 10 ^ (4 - f.length))) := by
  refine ⟨?_, ⟨by decide, ?_⟩, ?_⟩
  · intro tx w f ha hlen
    simp only [Tx.parse_amount, ha]
    cases hw : parseU128 w with
    | none => exact ⟨_, rfl⟩
    | some whole =>
      simp only
      cases hf : parseU128 f with
      | none => exact ⟨_, rfl⟩
      | some frac =>
        simp only
        by_cases h32 : f.length ≥ 2 ^ 32
        · rw [if_pos h32]
          exact ⟨_, rfl⟩
        · rw [if_neg h32, if_pos hlen]
          exact ⟨_, rfl⟩
  · intro tx ha
    simp only [Tx.parse_amount, ha]
    decide
  · intro tx w f ha hw1 hw2 hf1 hf2 hlen hbound
    have hwle : digitsToNat w.toList ≤ U128MAX := by
      have : digitsToNat w.toList ≤ digitsToNat w.toList * 10000 :=
        Nat.le_mul_of_pos_right _ (by omega)
      omega
    have hfle : digitsToNat f.toList ≤ U128MAX := by
      have hlt := digitsToNat_lt f.toList hf2
      have hlen4 : f.toList.length ≤ 4 := by
        have hfl : f.toList.length = f.length := rfl
        omega
      have hpow : (10 : Nat) ^ f.toList.length ≤ 10 ^ 4 :=
        Nat.pow_le_pow_right (by omega) hlen4
      have : digitsToNat f.toList < 10 ^ 4 := lt_of_lt_of_le hlt hpow
      unfold U128MAX
      omega
    have hwv : parseU128 w = some (digitsToNat w.toList) :=
      parseU128list_digits w.toList hw1 hw2 hwle
    have hfv : parseU128 f = some (digitsToNat f.toList) :=
      parseU128list_digits f.toList hf1 hf2 hfle
    simp only [Tx.parse_amount, ha, hwv, hfv]
    have h32 : ¬ (f.length ≥ 2 ^ 32) := by omega
    have h4 : ¬ (f.length > 4) := by omega
    have h3 : ¬ (digitsToNat w.toList * 10000 > U128MAX) := by omega
    have h5 : ¬ (digitsToNat w.toList * 10000 +
        digitsToNat f.toList * 10 ^ (4 - f.length) > U128MAX) := by omega
    rw [if_neg h32, if_neg h4, if_neg h3, if_neg h5]

/-- Claim C9 is false as stated: here the whole part fits the
scaled-by-10^4 `u128` range (`whole * 10000 ≤ u128::MAX`) and the
fractional part has exactly 4 digits, yet parsing fails, because the
engine checks the full scaled value `whole * 10000 + fraction` against the
range — the repository's own `parse_amount` test pins this behavior. -/
theorem claim_C9_counterexample :
    34028236692093846346337460743176821 * 10000 ≤ U128MAX ∧
      Tx.parse_amount
          ⟨.Deposit, 0, 0,
            some ("34028236692093846346337460743176821", "9999"), false⟩ =
        .error
          (.InvalidAmount
            "overflow when storing the whole + fraction in 10**4 denomination") := by
  decide

theorem claim_C9_witness :
    Tx.parse_amount ⟨.Deposit, 0, 0, some ("2", "5"), false⟩ = .ok 25000 := by
  have h := claim_C9_amount_parsing.2.2 ⟨.Deposit, 0, 0, some ("2", "5"), false⟩
    "2" "5" rfl (by decide) (by decide) (by decide) (by decide) (by decide)
    (by decide)
  exact h

/-- Claim C10 concerns a divergence between spec and code: a Deposit or
Withdrawal whose amount is absent does not fail with the missing-amount
error — `Tx::parse_amount` maps a missing amount to `Ok(0)`, so the
operation succeeds as a zero-amount no-op (and an empty amount string
fails with `InvalidAmount`, not `MissingAmount`; the `MissingAmount`
variant of the error enum is never constructed anywhere in the code). -/
theorem claim_C10_missing_amount_not_rejected :
    Tx.parse_amount ⟨.Deposit, 0, 0, none, false⟩ = .ok 0 ∧
      (handle ⟨.Deposit, 0, 0, none, false⟩ initState).1 = .ok () ∧
      (handle ⟨.Deposit, 0, 0, none, false⟩ initState).2.accounts 0 =
        some ⟨0, 0, 0, false⟩ ∧
      (handle ⟨.Withdrawal, 0, 0, none, false⟩ initState).1 = .ok () ∧
      (handle ⟨.Deposit, 0, 1, some ("", "0"), false⟩ initState).1 =
        .error (.InvalidAmount ("Whole part error when parsing: " ++ "")) := by
  decide
